import Mathlib

/-!
# js-ipfs CLI: `swarm connect` handler and the configuration profile engine

Part 1 embeds `src/cli/commands/swarm/connect.js`: the command's `handler`, run against
explicit collaborators (`argv.isDaemonOn`, `argv.getIpfs`, `ipfs.dns`, `ipfs.swarm.connect`,
`argv.print`).  Every call of a collaborator is recorded in a trace, so that statements about
"how many lookups", "what was passed to connect" and "what was printed" are statements about
the trace.

Part 2 models the configuration profile engine exercised by `test/cli/config.js`.
-/

namespace SwarmConnect

/-! ## JavaScript values that can be thrown -/

/-- The JavaScript values a rejected promise of a collaborator can carry: `undefined`, a string,
or an `Error` object with its `name` and `message`. -/
inductive JsVal where
  | undefined
  | str (s : String)
  | error (name message : String)
  deriving DecidableEq, Repr

/-- JavaScript `String(v)`; for an `Error` object this is `Error.prototype.toString`. -/
def JsVal.toJsString : JsVal → String
  | .undefined => "undefined"
  | .str s => s
  | .error name message =>
    if name = "" then message
    else if message = "" then name
    else name ++ ": " ++ message

/-- JavaScript `new Error(v)`: the message is `String(v)`, and is empty when `v` is
`undefined`; nothing else of `v` is kept. -/
def newError : JsVal → JsVal
  | .undefined => .error "Error" ""
  | v => .error "Error" v.toJsString

/-! ## `String.prototype.indexOf` -/

/-- Scan for the first position at which `pat` starts, counting from `i`; `-1` when there is
none. -/
def indexOfFrom (pat : List Char) : List Char → Nat → Int
  | [], i => if pat.isPrefixOf [] then (i : Int) else -1
  | c :: cs, i => if pat.isPrefixOf (c :: cs) then (i : Int) else indexOfFrom pat cs (i + 1)

/-- JavaScript `s.indexOf(pat)`: the first index at which `pat` occurs in `s`, or `-1`. -/
def indexOf (s pat : String) : Int :=
  indexOfFrom pat.data s.data 0

/-! ## Collaborators and their observable calls -/

/-- The value `ipfs.swarm.connect` resolves to: an object with a `Strings` array. -/
structure ConnectResult where
  Strings : List String
  deriving DecidableEq, Repr

/-- The `ipfs` instance as far as the handler uses it: `ipfs.dns` and `ipfs.swarm.connect`,
each either resolving to a value or rejecting with a thrown value. -/
structure Ipfs where
  dns : String → Except JsVal String
  swarmConnect : String → Except JsVal ConnectResult

/-- The `argv` object handed to the handler: the parsed options (`address`, and the two options
declared by `builder`, `recursive` with default `true` and `format`) and the CLI utilities
`isDaemonOn()` and `getIpfs()`. -/
structure Argv where
  address : String
  recursive : Bool := true
  format : Option String := none
  isDaemonOn : Bool
  getIpfs : Except JsVal Ipfs

/-- One observable call made by the handler. `print none` is `argv.print(undefined)`. -/
inductive Event where
  | getIpfs
  | lookup (domain : String)
  | connect (addr : String)
  | print (value : Option String)
  deriving DecidableEq, Repr

/-- The outcome of an asynchronous computation: the calls it made, in order, and whether its
promise resolved (`ok`) or rejected (`error`). -/
structure Async (α : Type) where
  trace : List Event
  result : Except JsVal α

/-- A resolved promise: no call made. -/
def Async.pure {α : Type} (a : α) : Async α :=
  ⟨[], .ok a⟩

/-- The statement `throw v` inside an async function. -/
def Async.throw {α : Type} (v : JsVal) : Async α :=
  ⟨[], .error v⟩

/-- Sequencing (`await m`, then the rest): a rejection stops the computation, the calls made so
far stay made. -/
def Async.bind {α β : Type} (m : Async α) (f : α → Async β) : Async β :=
  match m.result with
  | .error e => ⟨m.trace, .error e⟩
  | .ok a => ⟨m.trace ++ (f a).trace, (f a).result⟩

/-- The statement `try { body } catch (e) { handler }`. -/
def Async.tryCatch {α : Type} (body : Async α) (handler : JsVal → Async α) : Async α :=
  match body.result with
  | .ok a => ⟨body.trace, .ok a⟩
  | .error e => ⟨body.trace ++ (handler e).trace, (handler e).result⟩

instance : Monad Async where
  pure := Async.pure
  bind := Async.bind

/-- A call of a collaborator: it is recorded, and resolves or rejects as the collaborator
does. -/
def call {α : Type} (ev : Event) (r : Except JsVal α) : Async α :=
  ⟨[ev], r⟩

/-- The text of the error thrown when the daemon is not running. -/
def offlineMessage : String :=
  "This command must be run in online mode. Try running \x27ipfs daemon\x27 first."

/-- The async function that `handler (argv)` passes to `argv.resolve`
(`src/cli/commands/swarm/connect.js`, lines 21-43). -/
def handler (argv : Argv) : Async Unit := do
  if !argv.isDaemonOn then
    (Async.throw (newError (.str offlineMessage)) : Async Unit)
  let ipfs ← call .getIpfs argv.getIpfs
  let mut path := ""
  if indexOf argv.address "dnsaddr" > -1 then
    path ← Async.tryCatch (call (.lookup argv.address) (ipfs.dns argv.address))
      (fun e => Async.throw (newError e))
  else
    path := argv.address
  let res ← call (.connect path) (ipfs.swarmConnect path)
  call (.print res.Strings[0]?) (.ok ())

/-- The domains looked up through `ipfs.dns`, in order. -/
def lookups : List Event → List String
  | [] => []
  | .lookup d :: es => d :: lookups es
  | _ :: es => lookups es

/-- The addresses passed to `ipfs.swarm.connect`, in order. -/
def connects : List Event → List String
  | [] => []
  | .connect a :: es => a :: connects es
  | _ :: es => connects es

/-- The values passed to `argv.print`, in order. -/
def prints : List Event → List (Option String)
  | [] => []
  | .print v :: es => v :: prints es
  | _ :: es => prints es

/-- The string `sub` occurs in `s` (as a run of consecutive characters). -/
def Contains (s sub : String) : Prop :=
  sub.data <:+: s.data

instance (s sub : String) : Decidable (Contains s sub) :=
  inferInstanceAs (Decidable (sub.data <:+: s.data))

/-- The text an `Error` object shows: its name and message. -/
def JsVal.texts : JsVal → List String
  | .undefined => []
  | .str s => [s]
  | .error name message => [name, message]

/-! ## Example collaborators -/

/-- An instance whose lookups always succeed and always answer with another DNS link, and
whose connect succeeds. -/
def chainIpfs : Ipfs where
  dns := fun _ => .ok "/dnsaddr/next.example.org"
  swarmConnect := fun a => .ok ⟨["connect " ++ a ++ " success"]⟩

/-- An instance whose lookups are rejected with the error `ENOTFOUND`. -/
def failingIpfs : Ipfs where
  dns := fun _ => .error (.error "Error" "queryTxt ENOTFOUND")
  swarmConnect := fun a => .ok ⟨["connect " ++ a ++ " success"]⟩

/-- A run with the daemon on and the default options. -/
def onlineArgv (address : String) (ipfs : Ipfs) : Argv where
  address := address
  isDaemonOn := true
  getIpfs := .ok ipfs

/-- A run with the daemon off and the default options. -/
def offlineArgv (address : String) (ipfs : Ipfs) : Argv where
  address := address
  isDaemonOn := false
  getIpfs := .ok ipfs

end SwarmConnect

namespace ConfigProfile

/-! ## Configuration documents -/

mutual
/-- Modelled from the spec: the ConfigDocument of section 3, whose implementation is not among
the sources (only its test `test/cli/config.js` is). A value is a string, boolean, null,
number, array of strings, or a nested object. -/
inductive Json where
  | null
  | bool (b : Bool)
  | num (n : Int)
  | str (s : String)
  | strs (xs : List String)
  | obj (members : Members)
/-- Modelled from the spec: the key/value members of a nested object of a ConfigDocument, in
the order they are written. -/
inductive Members where
  | nil
  | cons (key : String) (value : Json) (rest : Members)
end

/-- A key path such as `Discovery.MDNS.Enabled`, one key per nesting level. -/
abbrev Path := List String

/-- The value stored under `key`, if any. -/
def Members.lookup : Members → String → Option Json
  | .nil, _ => none
  | .cons k v rest, key => if k = key then some v else rest.lookup key

/-- Store `value` under `key`: in place when the key is there, at the end otherwise. -/
def Members.upsert : Members → String → Json → Members
  | .nil, key, value => .cons key value .nil
  | .cons k v rest, key, value =>
    if k = key then .cons k value rest else .cons k v (rest.upsert key value)

/-- Remove every member stored under `key`. -/
def Members.erase : Members → String → Members
  | .nil, _ => .nil
  | .cons k v rest, key => if k = key then rest.erase key else .cons k v (rest.erase key)

/-- The members of an object; a value that is not an object has none. -/
def Json.members : Json → Members
  | .obj ms => ms
  | _ => .nil

/-- Modelled from the spec: `getPath(path) -> value` of the ConfigStore collaborator
(section 6), absent from the sources. `none` when the document has nothing at the path. -/
def getPath : Json → Path → Option Json
  | j, [] => some j
  | j, k :: ks =>
    match j.members.lookup k with
    | some child => getPath child ks
    | none => none

/-- Modelled from the spec: `setPath(path, value)` of the ConfigStore collaborator
(section 6), absent from the sources. Objects missing on the way are created. -/
def setPath : Json → Path → Json → Json
  | _, [], value => value
  | j, k :: ks, value =>
    .obj (j.members.upsert k (setPath ((j.members.lookup k).getD (.obj .nil)) ks value))

/-- Replace the value of every member stored under `key` by its image under `f`. -/
def Members.mapAt : Members → String → (Json → Json) → Members
  | .nil, _, _ => .nil
  | .cons k v rest, key, f =>
    if k = key then .cons k (f v) (rest.mapAt key f) else .cons k v (rest.mapAt key f)

/-- Remove the field at a path, with all that is below it, in every member the path leads
through. The document itself (the empty path) cannot be removed. -/
def removePath : Json → Path → Json
  | j, [] => j
  | .obj ms, [k] => .obj (ms.erase k)
  | .obj ms, k :: k2 :: ks => .obj (ms.mapAt k (fun child => removePath child (k2 :: ks)))
  | j, _ :: _ => j

/-- Neither path is a prefix of the other: the two fields do not overlap. -/
def PathsApart (p q : Path) : Prop :=
  ¬ p <+: q ∧ ¬ q <+: p

instance (p q : Path) : Decidable (PathsApart p q) :=
  inferInstanceAs (Decidable (¬ p <+: q ∧ ¬ q <+: p))

/-! ## Profiles -/

def mdnsEnabled : Path := ["Discovery", "MDNS", "Enabled"]

def webRTCStarEnabled : Path := ["Discovery", "webRTCStar", "Enabled"]

def addressesAPI : Path := ["Addresses", "API"]

def addressesGateway : Path := ["Addresses", "Gateway"]

def addressesSwarm : Path := ["Addresses", "Swarm"]

def bootstrap : Path := ["Bootstrap"]

def lowWater : Path := ["Swarm", "ConnMgr", "LowWater"]

def highWater : Path := ["Swarm", "ConnMgr", "HighWater"]

/-- The values of `defaultConfig` (`src/core/runtime/config-nodejs`, not among the sources)
that the restoring profiles write back. -/
structure Defaults where
  api : String
  gateway : String
  swarm : List String
  bootstrap : List String
  lowWater : Int
  highWater : Int

/-- Modelled from the spec: a Profile of section 3, a name owning the pure transforms `apply`
and `revert` (`none` where the table of section 4.2 says n/a). The profile definitions are not
among the sources. -/
structure Profile where
  name : String
  apply : Json → Json
  revert : Option (Json → Json)

/-- Set both discovery switches to the same value. -/
def setDiscovery (enabled : Bool) (doc : Json) : Json :=
  setPath (setPath doc mdnsEnabled (.bool enabled)) webRTCStarEnabled (.bool enabled)

/-- Loopback, ephemeral addresses, no bootstrap peers, discovery off. -/
def applyTest (doc : Json) : Json :=
  setDiscovery false
    (setPath
      (setPath
        (setPath (setPath doc addressesAPI (.str "/ip4/127.0.0.1/tcp/0"))
          addressesGateway (.str "/ip4/127.0.0.1/tcp/0"))
        addressesSwarm (.strs ["/ip4/127.0.0.1/tcp/0"]))
      bootstrap (.strs []))

/-- The default addresses and bootstrap peers, discovery on. -/
def applyDefaultNetworking (defaults : Defaults) (doc : Json) : Json :=
  setDiscovery true
    (setPath
      (setPath
        (setPath (setPath doc addressesAPI (.str defaults.api))
          addressesGateway (.str defaults.gateway))
        addressesSwarm (.strs defaults.swarm))
      bootstrap (.strs defaults.bootstrap))

/-- Set the connection manager watermarks. -/
def setWatermarks (low high : Int) (doc : Json) : Json :=
  setPath (setPath doc lowWater (.num low)) highWater (.num high)

/-- The profile `server`: discovery off; reverting turns it on. -/
def serverProfile : Profile where
  name := "server"
  apply := setDiscovery false
  revert := some (setDiscovery true)

/-- The profile `local-discovery`: discovery on; reverting turns it off. -/
def localDiscoveryProfile : Profile where
  name := "local-discovery"
  apply := setDiscovery true
  revert := some (setDiscovery false)

/-- The profile `test`; reverting restores the default networking values. -/
def testProfile (defaults : Defaults) : Profile where
  name := "test"
  apply := applyTest
  revert := some (applyDefaultNetworking defaults)

/-- The profile `default-networking`, a restorer without a revert. -/
def defaultNetworkingProfile (defaults : Defaults) : Profile where
  name := "default-networking"
  apply := applyDefaultNetworking defaults
  revert := none

/-- The profile `lowpower`: watermarks 20 and 40; reverting restores the defaults. -/
def lowpowerProfile (defaults : Defaults) : Profile where
  name := "lowpower"
  apply := setWatermarks 20 40
  revert := some (setWatermarks defaults.lowWater defaults.highWater)

/-- The profile `default-power`, a restorer without a revert. -/
def defaultPowerProfile (defaults : Defaults) : Profile where
  name := "default-power"
  apply := setWatermarks defaults.lowWater defaults.highWater
  revert := none

/-- Modelled from the spec: the ProfileRegistry of section 4.2, the fixed catalogue of the six
built-in profiles with the effects of its table; the registry is not among the sources. -/
def ProfileRegistry (defaults : Defaults) : List Profile :=
  [serverProfile, localDiscoveryProfile, testProfile defaults,
    defaultNetworkingProfile defaults, lowpowerProfile defaults, defaultPowerProfile defaults]

/-- The profile registered under a name. -/
def lookupProfile (defaults : Defaults) (profileName : String) : Option Profile :=
  (ProfileRegistry defaults).find? (fun p => p.name == profileName)

/-! ## The engine -/

/-- The failures of the engine (section 7). -/
inductive EngineError where
  | unknownProfile (name : String)
  deriving DecidableEq, Repr

/-- Modelled from the spec: the ApplyResult of section 3, the computed document and whether
it was persisted. -/
structure ApplyResult where
  resultDocument : Json
  applied : Bool

/-- What an engine call leaves behind: what it returned and the content of the ConfigStore
afterwards. -/
structure EngineRun where
  returned : Except EngineError ApplyResult
  store : Json

/-- Modelled from the spec: `applyProfile(document, profileName, {dryRun})` of section 4.1,
absent from the sources, run against a ConfigStore holding `store`. An unknown name fails with
`UnknownProfile` and writes nothing; a dry run returns the result without writing; a real run
persists the result. -/
def applyProfile (defaults : Defaults) (document : Json) (profileName : String)
    (dryRun : Bool) (store : Json) : EngineRun :=
  match lookupProfile defaults profileName with
  | none => ⟨.error (.unknownProfile profileName), store⟩
  | some profile =>
    let resultDocument := profile.apply document
    if dryRun then ⟨.ok ⟨resultDocument, false⟩, store⟩
    else ⟨.ok ⟨resultDocument, true⟩, resultDocument⟩

/-! ## Redaction and output -/

/-- Modelled from the spec: the SensitiveFieldSet of section 3, a static set of key paths. Its
one member is the private-key path: the key the test names, `PrivKey`, under `Identity`. -/
def SensitiveFieldSet : List Path :=
  [["Identity", "PrivKey"]]

/-- Modelled from the spec: `redact(document)` of section 4.3, absent from the sources: every
path of the SensitiveFieldSet is removed. -/
def redact (document : Json) : Json :=
  SensitiveFieldSet.foldl removePath document

/-- The two hexadecimal digits of a number below 256. -/
def hex2 (n : Nat) : List Char :=
  [(Nat.digitChar (n / 16 % 16)), (Nat.digitChar (n % 16))]

/-- One character of a JSON string literal, escaped as `JSON.stringify` does. -/
def escapeChar (c : Char) : List Char :=
  if c = '"' then ['\\', '"']
  else if c = '\\' then ['\\', '\\']
  else if c = '\n' then ['\\', 'n']
  else if c = '\r' then ['\\', 'r']
  else if c = '\t' then ['\\', 't']
  else if c.toNat < 32 then ['\\', 'u', '0', '0'] ++ hex2 c.toNat
  else [c]

/-- The characters of a string as they stand between the quotes of its JSON literal. -/
def body (s : String) : List Char :=
  s.data.flatMap escapeChar

/-- A JSON string literal. -/
def quote (s : String) : List Char :=
  '"' :: (body s ++ ['"'])

/-- The literals of an array of strings, separated by commas. -/
def renderStrings : List String → List Char
  | [] => []
  | [s] => quote s
  | s :: rest => quote s ++ ',' :: renderStrings rest

mutual
/-- The serialized form of a document: its JSON text. -/
def Json.render : Json → List Char
  | .null => "null".data
  | .bool true => "true".data
  | .bool false => "false".data
  | .num n => (toString n).data
  | .str s => quote s
  | .strs xs => '[' :: (renderStrings xs ++ [']'])
  | .obj ms => '{' :: (ms.render ++ ['}'])
/-- The serialized members of an object, separated by commas. -/
def Members.render : Members → List Char
  | .nil => []
  | .cons k v .nil => quote k ++ ':' :: v.render
  | .cons k v rest => quote k ++ ':' :: (v.render ++ ',' :: rest.render)
end

/-- What the command leaves behind: the text it printed on success, or the failure it exits
with (a non-zero exit code), and the content of the ConfigStore afterwards. -/
structure CommandRun where
  output : Except EngineError String
  store : Json

/-- Modelled from the spec: the command `config profile apply [--dry-run] <name>` following
the control flow of section 2, absent from the sources: load the document from the store,
apply the profile through the engine, and print the redacted result. -/
def configProfileApply (defaults : Defaults) (profileName : String) (dryRun : Bool)
    (store : Json) : CommandRun :=
  let run := applyProfile defaults store profileName dryRun store
  match run.returned with
  | .error failure => ⟨.error failure, run.store⟩
  | .ok result => ⟨.ok (String.mk (redact result.resultDocument).render), run.store⟩

/-! ## The texts of a document -/

/-- The characters JSON text puts around and between keys and values. -/
def jsonPunctuation : List Char :=
  ['"', '{', '}', '[', ']', ':', ',']

/-- A text is plain when it is not empty and holds no JSON punctuation. -/
def Plain (needle : List Char) : Prop :=
  needle ≠ [] ∧ ∀ c ∈ jsonPunctuation, c ∉ needle

instance (needle : List Char) : Decidable (Plain needle) :=
  inferInstanceAs (Decidable (needle ≠ [] ∧ ∀ c ∈ jsonPunctuation, c ∉ needle))

mutual
/-- The texts a document is made of: the body of every key and of every string, and the
literal of every other scalar. -/
def Json.atoms : Json → List (List Char)
  | .null => ["null".data]
  | .bool true => ["true".data]
  | .bool false => ["false".data]
  | .num n => [(toString n).data]
  | .str s => [body s]
  | .strs xs => xs.map body
  | .obj ms => ms.atoms
/-- The texts of the members of an object. -/
def Members.atoms : Members → List (List Char)
  | .nil => []
  | .cons k v rest => body k :: (v.atoms ++ rest.atoms)
end

/-- The texts the built-in profiles write into a document: the keys of the paths they set and
the values they set there. -/
def profileTexts (defaults : Defaults) : List (List Char) :=
  (mdnsEnabled ++ webRTCStarEnabled ++ addressesAPI ++ addressesGateway ++ addressesSwarm ++
      bootstrap ++ lowWater ++ highWater).map body ++
    ((Json.bool true).atoms ++ (Json.bool false).atoms ++
      (Json.str "/ip4/127.0.0.1/tcp/0").atoms ++ (Json.num 20).atoms ++ (Json.num 40).atoms ++
      (Json.str defaults.api).atoms ++ (Json.str defaults.gateway).atoms ++
      (Json.strs defaults.swarm).atoms ++ (Json.strs defaults.bootstrap).atoms ++
      (Json.num defaults.lowWater).atoms ++ (Json.num defaults.highWater).atoms)

/-! ## Example documents -/

/-- Default values in the shape of the node's default configuration. -/
def exampleDefaults : Defaults where
  api := "/ip4/127.0.0.1/tcp/5002"
  gateway := "/ip4/127.0.0.1/tcp/9090"
  swarm := ["/ip4/0.0.0.0/tcp/4002"]
  bootstrap := ["/ip4/104.131.131.82/tcp/4001"]
  lowWater := 200
  highWater := 500

/-- A document with discovery on and an identity. -/
def exampleDocument : Json :=
  .obj (.cons "Identity"
      (.obj (.cons "PeerID" (.str "QmPeer") (.cons "PrivKey" (.str "CAASpQkw") .nil)))
    (.cons "Discovery"
      (.obj (.cons "MDNS" (.obj (.cons "Enabled" (.bool true) .nil))
        (.cons "webRTCStar" (.obj (.cons "Enabled" (.bool true) .nil)) .nil)))
      .nil))

/-- A document with discovery on that holds a copy of the private key outside the
private-key path. -/
def documentWithCopy : Json :=
  .obj (.cons "Identity"
      (.obj (.cons "PeerID" (.str "QmPeer") (.cons "PrivKey" (.str "CAASpQkw") .nil)))
    (.cons "Discovery"
      (.obj (.cons "MDNS" (.obj (.cons "Enabled" (.bool true) .nil))
        (.cons "webRTCStar" (.obj (.cons "Enabled" (.bool true) .nil)) .nil)))
      (.cons "Legacy" (.obj (.cons "PrivKey" (.str "CAASpQkw") .nil)) .nil)))

end ConfigProfile

namespace SwarmConnect

/-! ## Facts about `indexOf` -/

theorem indexOfFrom_gt_iff (pat l : List Char) (i : Nat) :
    indexOfFrom pat l i > -1 ↔ pat <:+: l := by
  induction l generalizing i with
  | nil =>
    cases pat <;> simp [indexOfFrom]
    omega
  | cons c cs ih =>
    rw [indexOfFrom, List.infix_cons_iff]
    by_cases h : pat.isPrefixOf (c :: cs) = true
    · rw [if_pos h]
      have h1 : pat <+: c :: cs := List.isPrefixOf_iff_prefix.mp h
      constructor
      · intro _; exact Or.inl h1
      · intro _; omega
    · rw [if_neg h, ih]
      have h1 : ¬ pat <+: c :: cs := fun hp => h (List.isPrefixOf_iff_prefix.mpr hp)
      constructor
      · intro hc; exact Or.inr hc
      · intro hc; exact hc.resolve_left h1

/-- The handler's test `address.indexOf(sub) > -1` holds exactly when `sub` occurs in
`address`. -/
theorem indexOf_gt_iff (s sub : String) : indexOf s sub > -1 ↔ Contains s sub :=
  indexOfFrom_gt_iff sub.data s.data 0

/-! ## The handler, case by case -/

theorem handler_offline (argv : Argv) (hoff : argv.isDaemonOn = false) :
    handler argv = ⟨[], .error (newError (.str offlineMessage))⟩ := by
  simp [handler, hoff, bind, Async.bind, Async.throw]

theorem handler_no_ipfs (argv : Argv) (e : JsVal) (hon : argv.isDaemonOn = true)
    (hipfs : argv.getIpfs = .error e) :
    handler argv = ⟨[.getIpfs], .error e⟩ := by
  simp [handler, hon, hipfs, bind, Async.bind, call, pure, Async.pure]

theorem handler_plain (argv : Argv) (ipfs : Ipfs) (hon : argv.isDaemonOn = true)
    (hipfs : argv.getIpfs = .ok ipfs) (hno : ¬ Contains argv.address "dnsaddr") :
    handler argv =
      match ipfs.swarmConnect argv.address with
      | .error e => ⟨[.getIpfs, .connect argv.address], .error e⟩
      | .ok res => ⟨[.getIpfs, .connect argv.address, .print res.Strings[0]?], .ok ()⟩ := by
  have h : ¬ indexOf argv.address "dnsaddr" > -1 := fun h => hno ((indexOf_gt_iff _ _).mp h)
  cases hc : ipfs.swarmConnect argv.address <;>
    simp [handler, hon, hipfs, h, hc, bind, Async.bind, call, pure, Async.pure]

theorem handler_lookup_failed (argv : Argv) (ipfs : Ipfs) (e : JsVal)
    (hon : argv.isDaemonOn = true) (hipfs : argv.getIpfs = .ok ipfs)
    (hmark : Contains argv.address "dnsaddr") (hdns : ipfs.dns argv.address = .error e) :
    handler argv = ⟨[.getIpfs, .lookup argv.address], .error (newError e)⟩ := by
  have h : indexOf argv.address "dnsaddr" > -1 := (indexOf_gt_iff _ _).mpr hmark
  simp [handler, hon, hipfs, h, hdns, bind, Async.bind, call, pure, Async.pure,
    Async.tryCatch, Async.throw]

theorem handler_lookup_ok (argv : Argv) (ipfs : Ipfs) (p : String)
    (hon : argv.isDaemonOn = true) (hipfs : argv.getIpfs = .ok ipfs)
    (hmark : Contains argv.address "dnsaddr") (hdns : ipfs.dns argv.address = .ok p) :
    handler argv =
      match ipfs.swarmConnect p with
      | .error e => ⟨[.getIpfs, .lookup argv.address, .connect p], .error e⟩
      | .ok res =>
        ⟨[.getIpfs, .lookup argv.address, .connect p, .print res.Strings[0]?], .ok ()⟩ := by
  have h : indexOf argv.address "dnsaddr" > -1 := (indexOf_gt_iff _ _).mpr hmark
  cases hc : ipfs.swarmConnect p <;>
    simp [handler, hon, hipfs, h, hdns, hc, bind, Async.bind, call, pure, Async.pure,
      Async.tryCatch]

end SwarmConnect

namespace SwarmConnect

/-! ## The claims about the handler -/

/-- C1: with the daemon on and the ipfs instance obtained, an address that does not contain
"dnsaddr" causes no DNS lookup and is passed, unchanged, as the one argument of the one call
of ipfs.swarm.connect. -/
theorem plain_address_connects_unchanged (argv : Argv) (ipfs : Ipfs)
    (hno : ¬ Contains argv.address "dnsaddr") (hon : argv.isDaemonOn = true)
    (hipfs : argv.getIpfs = .ok ipfs) :
    lookups (handler argv).trace = [] ∧ connects (handler argv).trace = [argv.address] := by
  rw [handler_plain argv ipfs hon hipfs hno]
  cases ipfs.swarmConnect argv.address <;> simp [lookups, connects]

theorem plain_address_connects_unchanged_witness :
    lookups (handler (onlineArgv "/ip4/104.131.131.82/tcp/4001" chainIpfs)).trace = [] ∧
      connects (handler (onlineArgv "/ip4/104.131.131.82/tcp/4001" chainIpfs)).trace =
        ["/ip4/104.131.131.82/tcp/4001"] :=
  plain_address_connects_unchanged (onlineArgv "/ip4/104.131.131.82/tcp/4001" chainIpfs)
    chainIpfs (by decide) rfl rfl

/-- C2 (evaluation at the failing input): with recursive true and every lookup succeeding,
the handler makes one lookup only and passes its result, which still contains "dnsaddr", to
ipfs.swarm.connect. -/
theorem recursive_not_followed :
    (onlineArgv "/dnsaddr/bootstrap.example.org" chainIpfs).recursive = true ∧
      lookups (handler (onlineArgv "/dnsaddr/bootstrap.example.org" chainIpfs)).trace =
        ["/dnsaddr/bootstrap.example.org"] ∧
      connects (handler (onlineArgv "/dnsaddr/bootstrap.example.org" chainIpfs)).trace =
        ["/dnsaddr/next.example.org"] ∧
      Contains "/dnsaddr/next.example.org" "dnsaddr" ∧
      (handler (onlineArgv "/dnsaddr/bootstrap.example.org" chainIpfs)).result = .ok () :=
  ⟨rfl, by decide, by decide, by decide, rfl⟩

/-- C3: whatever the address and whatever the collaborators do, one run of the handler makes
at most one DNS lookup, hence at most 32. -/
theorem lookups_bounded (argv : Argv) :
    (lookups (handler argv).trace).length ≤ 1 ∧ (lookups (handler argv).trace).length ≤ 32 := by
  have h : (lookups (handler argv).trace).length ≤ 1 := by
    cases hon : argv.isDaemonOn with
    | false => simp [handler_offline argv hon, lookups]
    | true =>
      cases hipfs : argv.getIpfs with
      | error e => simp [handler_no_ipfs argv e hon hipfs, lookups]
      | ok ipfs =>
        by_cases hmark : Contains argv.address "dnsaddr"
        · cases hdns : ipfs.dns argv.address with
          | error e => simp [handler_lookup_failed argv ipfs e hon hipfs hmark hdns, lookups]
          | ok p =>
            rw [handler_lookup_ok argv ipfs p hon hipfs hmark hdns]
            cases ipfs.swarmConnect p <;> simp [lookups]
        · rw [handler_plain argv ipfs hon hipfs hmark]
          cases ipfs.swarmConnect argv.address <;> simp [lookups]
  exact ⟨h, le_trans h (by decide)⟩

/-- C4: for an address containing "dnsaddr", if the DNS lookup of it fails on whatever
ipfs instance is obtained, the promise of the handler is rejected, ipfs.swarm.connect is
never called and nothing is printed. -/
theorem lookup_failure_rejects (argv : Argv) (hmark : Contains argv.address "dnsaddr")
    (hfail : ∀ ipfs, argv.getIpfs = .ok ipfs → ∃ e, ipfs.dns argv.address = .error e) :
    (∃ err, (handler argv).result = .error err) ∧
      connects (handler argv).trace = [] ∧ prints (handler argv).trace = [] := by
  cases hon : argv.isDaemonOn with
  | false => simp [handler_offline argv hon, connects, prints]
  | true =>
    cases hipfs : argv.getIpfs with
    | error e => simp [handler_no_ipfs argv e hon hipfs, connects, prints]
    | ok ipfs =>
      obtain ⟨e, hdns⟩ := hfail ipfs hipfs
      simp [handler_lookup_failed argv ipfs e hon hipfs hmark hdns, connects, prints]

theorem lookup_failure_rejects_witness :
    (∃ err, (handler (onlineArgv "/dnsaddr/bootstrap.example.org" failingIpfs)).result =
        .error err) ∧
      connects (handler (onlineArgv "/dnsaddr/bootstrap.example.org" failingIpfs)).trace = [] ∧
      prints (handler (onlineArgv "/dnsaddr/bootstrap.example.org" failingIpfs)).trace = [] :=
  lookup_failure_rejects (onlineArgv "/dnsaddr/bootstrap.example.org" failingIpfs) (by decide)
    (fun ipfs h => by
      have h2 : failingIpfs = ipfs := Except.ok.inj h
      subst h2
      exact ⟨_, rfl⟩)

/-- C5 (counterexample): the lookup of "/dnsaddr/bootstrap.example.org" is rejected with the
error ENOTFOUND; the failure the handler surfaces is a new Error with the message
"Error: queryTxt ENOTFOUND", and neither its name nor its message contains the original
address. -/
theorem reported_error_lacks_address :
    Contains "/dnsaddr/bootstrap.example.org" "dnsaddr" ∧
      failingIpfs.dns "/dnsaddr/bootstrap.example.org" =
        .error (.error "Error" "queryTxt ENOTFOUND") ∧
      (handler (onlineArgv "/dnsaddr/bootstrap.example.org" failingIpfs)).result =
        .error (.error "Error" "Error: queryTxt ENOTFOUND") ∧
      ∀ t ∈ (JsVal.error "Error" "Error: queryTxt ENOTFOUND").texts,
        ¬ Contains t "/dnsaddr/bootstrap.example.org" :=
  ⟨by decide, rfl, rfl, by decide⟩

/-- C5 (amended): for an address containing "dnsaddr" whose lookup is rejected with e (daemon
on, ipfs instance obtained), the promise of the handler is rejected with a new Error whose
message is String(e), empty when e is undefined; that message contains every text of the
cause e. The original address is not added to it. -/
theorem lookup_failure_wraps_cause (argv : Argv) (ipfs : Ipfs) (e : JsVal)
    (hmark : Contains argv.address "dnsaddr") (hon : argv.isDaemonOn = true)
    (hipfs : argv.getIpfs = .ok ipfs) (hdns : ipfs.dns argv.address = .error e) :
    (handler argv).result =
        .error (.error "Error" (if e = .undefined then "" else e.toJsString)) ∧
      ∀ t ∈ e.texts, Contains (if e = .undefined then "" else e.toJsString) t := by
  rw [handler_lookup_failed argv ipfs e hon hipfs hmark hdns]
  cases e with
  | undefined => simp [newError, JsVal.texts]
  | str s => simp [newError, JsVal.texts, JsVal.toJsString, Contains]
  | error name message =>
    refine ⟨by simp [newError], ?_⟩
    intro t ht
    simp only [JsVal.texts, List.mem_cons, List.mem_singleton, List.not_mem_nil, or_false] at ht
    simp only [reduceCtorEq, if_false, JsVal.toJsString, Contains]
    by_cases hn : name = ""
    · rw [if_pos hn]
      rcases ht with rfl | rfl
      · rw [hn]; exact List.nil_infix
      · exact List.infix_refl _
    · rw [if_neg hn]
      by_cases hm : message = ""
      · rw [if_pos hm]
        rcases ht with rfl | rfl
        · exact List.infix_refl _
        · rw [hm]; exact List.nil_infix
      · rw [if_neg hm]
        rcases ht with rfl | rfl
        · exact ⟨[], (": " ++ message).data, by simp [String.data_append]⟩
        · exact ⟨(name ++ ": ").data, [], by simp [String.data_append]⟩

theorem lookup_failure_wraps_cause_witness :
    (handler (onlineArgv "/dnsaddr/bootstrap.example.org" failingIpfs)).result =
        .error (.error "Error"
          (if JsVal.error "Error" "queryTxt ENOTFOUND" = .undefined then ""
            else (JsVal.error "Error" "queryTxt ENOTFOUND").toJsString)) ∧
      ∀ t ∈ (JsVal.error "Error" "queryTxt ENOTFOUND").texts,
        Contains (if JsVal.error "Error" "queryTxt ENOTFOUND" = .undefined then ""
          else (JsVal.error "Error" "queryTxt ENOTFOUND").toJsString) t :=
  lookup_failure_wraps_cause (onlineArgv "/dnsaddr/bootstrap.example.org" failingIpfs)
    failingIpfs (.error "Error" "queryTxt ENOTFOUND") (by decide) rfl rfl rfl

/-- C9: when the daemon is not on, the promise of the handler is rejected with the Error
"This command must be run in online mode. Try running \x27ipfs daemon\x27 first." and the
handler has called nothing: not getIpfs, no DNS lookup, not ipfs.swarm.connect, not print. -/
theorem offline_rejected_before_any_call (argv : Argv) (hoff : argv.isDaemonOn = false) :
    (handler argv).result =
        .error (.error "Error"
          "This command must be run in online mode. Try running \x27ipfs daemon\x27 first.") ∧
      (handler argv).trace = [] ∧
      lookups (handler argv).trace = [] ∧
      connects (handler argv).trace = [] ∧
      prints (handler argv).trace = [] := by
  rw [handler_offline argv hoff]
  simp [newError, JsVal.toJsString, offlineMessage, lookups, connects, prints]

theorem offline_rejected_before_any_call_witness :
    (handler (offlineArgv "/dnsaddr/bootstrap.example.org" chainIpfs)).result =
        .error (.error "Error"
          "This command must be run in online mode. Try running \x27ipfs daemon\x27 first.") ∧
      (handler (offlineArgv "/dnsaddr/bootstrap.example.org" chainIpfs)).trace = [] ∧
      lookups (handler (offlineArgv "/dnsaddr/bootstrap.example.org" chainIpfs)).trace = [] ∧
      connects (handler (offlineArgv "/dnsaddr/bootstrap.example.org" chainIpfs)).trace = [] ∧
      prints (handler (offlineArgv "/dnsaddr/bootstrap.example.org" chainIpfs)).trace = [] :=
  offline_rejected_before_any_call (offlineArgv "/dnsaddr/bootstrap.example.org" chainIpfs) rfl

/-- C10: two runs that differ only in the values of recursive and format have the same
outcome, calls and result alike. Whatever these two options are: when the daemon is on, the
ipfs instance is obtained, the address resolves to path (the lookup result when the address
contains "dnsaddr", the address itself otherwise) and ipfs.swarm.connect resolves for path to
res, the run succeeds, looks up the address only when it contains "dnsaddr", passes path to
ipfs.swarm.connect and prints the single value res.Strings[0]; every run that succeeds has
printed exactly that value, and every run that fails has printed nothing. -/
theorem recursive_and_format_ignored (argv : Argv) (r1 r2 : Bool) (f1 f2 : Option String) :
    handler { argv with recursive := r1, format := f1 } =
        handler { argv with recursive := r2, format := f2 } ∧
      (∀ ipfs path res, argv.isDaemonOn = true → argv.getIpfs = .ok ipfs →
        ((Contains argv.address "dnsaddr" ∧ ipfs.dns argv.address = .ok path) ∨
          (¬ Contains argv.address "dnsaddr" ∧ path = argv.address)) →
        ipfs.swarmConnect path = .ok res →
        (handler { argv with recursive := r1, format := f1 }).result = .ok () ∧
          (Contains argv.address "dnsaddr" →
            lookups (handler { argv with recursive := r1, format := f1 }).trace =
              [argv.address]) ∧
          (¬ Contains argv.address "dnsaddr" →
            lookups (handler { argv with recursive := r1, format := f1 }).trace = []) ∧
          connects (handler { argv with recursive := r1, format := f1 }).trace = [path] ∧
          prints (handler { argv with recursive := r1, format := f1 }).trace =
            [res.Strings[0]?]) ∧
      ((handler { argv with recursive := r1, format := f1 }).result = .ok () →
        ∃ ipfs path res, argv.getIpfs = .ok ipfs ∧
          connects (handler { argv with recursive := r1, format := f1 }).trace = [path] ∧
          ipfs.swarmConnect path = .ok res ∧
          prints (handler { argv with recursive := r1, format := f1 }).trace =
            [res.Strings[0]?]) ∧
      ∀ e, (handler { argv with recursive := r1, format := f1 }).result = .error e →
        prints (handler { argv with recursive := r1, format := f1 }).trace = [] := by
  have hsame : handler { argv with recursive := r1, format := f1 } = handler argv := rfl
  rw [hsame]
  refine ⟨rfl, ?_, ?_, ?_⟩
  · intro ipfs path res hon hipfs hpath hc
    rcases hpath with ⟨hmark, hdns⟩ | ⟨hmark, rfl⟩
    · rw [handler_lookup_ok argv ipfs path hon hipfs hmark hdns, hc]
      exact ⟨rfl, fun _ => by simp [lookups], fun h => absurd hmark h, by simp [connects],
        by simp [prints]⟩
    · rw [handler_plain argv ipfs hon hipfs hmark, hc]
      exact ⟨rfl, fun h => absurd h hmark, fun _ => by simp [lookups], by simp [connects],
        by simp [prints]⟩
  · cases hon : argv.isDaemonOn with
    | false => simp [handler_offline argv hon]
    | true =>
      cases hipfs : argv.getIpfs with
      | error e => simp [handler_no_ipfs argv e hon hipfs]
      | ok ipfs =>
        by_cases hmark : Contains argv.address "dnsaddr"
        · cases hdns : ipfs.dns argv.address with
          | error e => simp [handler_lookup_failed argv ipfs e hon hipfs hmark hdns]
          | ok p =>
            rw [handler_lookup_ok argv ipfs p hon hipfs hmark hdns]
            cases hc : ipfs.swarmConnect p with
            | error e => simp
            | ok res =>
              intro _
              exact ⟨ipfs, p, res, rfl, by simp [connects], hc, by simp [prints]⟩
        · rw [handler_plain argv ipfs hon hipfs hmark]
          cases hc : ipfs.swarmConnect argv.address with
          | error e => simp
          | ok res =>
            intro _
            exact ⟨ipfs, argv.address, res, rfl, by simp [connects], hc, by simp [prints]⟩
  · intro e
    cases hon : argv.isDaemonOn with
    | false => simp [handler_offline argv hon, prints]
    | true =>
      cases hipfs : argv.getIpfs with
      | error e2 => simp [handler_no_ipfs argv e2 hon hipfs, prints]
      | ok ipfs =>
        by_cases hmark : Contains argv.address "dnsaddr"
        · cases hdns : ipfs.dns argv.address with
          | error e2 => simp [handler_lookup_failed argv ipfs e2 hon hipfs hmark hdns, prints]
          | ok p =>
            rw [handler_lookup_ok argv ipfs p hon hipfs hmark hdns]
            cases hc : ipfs.swarmConnect p <;> simp [prints]
        · rw [handler_plain argv ipfs hon hipfs hmark]
          cases hc : ipfs.swarmConnect argv.address <;> simp [prints]

theorem recursive_and_format_ignored_witness :
    (handler { onlineArgv "/dnsaddr/bootstrap.example.org" chainIpfs with
        recursive := false, format := some "json" }).result = .ok () ∧
      connects (handler { onlineArgv "/dnsaddr/bootstrap.example.org" chainIpfs with
        recursive := false, format := some "json" }).trace = ["/dnsaddr/next.example.org"] ∧
      prints (handler { onlineArgv "/dnsaddr/bootstrap.example.org" chainIpfs with
        recursive := false, format := some "json" }).trace =
        [some "connect /dnsaddr/next.example.org success"] :=
  have h := (recursive_and_format_ignored (onlineArgv "/dnsaddr/bootstrap.example.org" chainIpfs)
    false true (some "json") none).2.1 chainIpfs "/dnsaddr/next.example.org"
    ⟨["connect /dnsaddr/next.example.org success"]⟩ rfl rfl
    (Or.inl ⟨by decide, rfl⟩) rfl
  ⟨h.1, h.2.2.2.1, h.2.2.2.2⟩

end SwarmConnect

namespace ConfigProfile

/-! ## Lookup after an update -/

theorem lookup_upsert_self : ∀ (ms : Members) (k : String) (v : Json),
    (ms.upsert k v).lookup k = some v
  | .nil, k, v => by simp [Members.upsert, Members.lookup]
  | .cons k1 v1 rest, k, v => by
    by_cases h : k1 = k
    · simp [Members.upsert, Members.lookup, h]
    · simp [Members.upsert, Members.lookup, h, lookup_upsert_self rest k v]

theorem lookup_upsert_of_ne : ∀ (ms : Members) (k k2 : String) (v : Json), k ≠ k2 →
    (ms.upsert k v).lookup k2 = ms.lookup k2
  | .nil, k, k2, v, hne => by simp [Members.upsert, Members.lookup, hne]
  | .cons k1 v1 rest, k, k2, v, hne => by
    by_cases h : k1 = k
    · subst h
      simp [Members.upsert, Members.lookup, hne]
    · by_cases h2 : k1 = k2
      · subst h2
        simp [Members.upsert, Members.lookup, h]
      · simp [Members.upsert, Members.lookup, h, h2, lookup_upsert_of_ne rest k k2 v hne]

theorem lookup_erase_self : ∀ (ms : Members) (k : String), (ms.erase k).lookup k = none
  | .nil, k => by simp [Members.erase, Members.lookup]
  | .cons k1 v1 rest, k => by
    by_cases h : k1 = k
    · simp [Members.erase, h, lookup_erase_self rest k]
    · simp [Members.erase, Members.lookup, h, lookup_erase_self rest k]

theorem lookup_erase_of_ne : ∀ (ms : Members) (k k2 : String), k ≠ k2 →
    (ms.erase k).lookup k2 = ms.lookup k2
  | .nil, k, k2, _ => by simp [Members.erase, Members.lookup]
  | .cons k1 v1 rest, k, k2, hne => by
    by_cases h : k1 = k
    · subst h
      simp [Members.erase, Members.lookup, hne, lookup_erase_of_ne rest k1 k2 hne]
    · by_cases h2 : k1 = k2
      · subst h2
        simp [Members.erase, Members.lookup, h]
      · simp [Members.erase, Members.lookup, h, h2, lookup_erase_of_ne rest k k2 hne]

/-! ## Paths -/

theorem pathsApart_cons_same (k : String) (p q : Path) :
    PathsApart (k :: p) (k :: q) ↔ PathsApart p q := by
  simp [PathsApart, List.cons_prefix_cons]

theorem pathsApart_head_ne (k k2 : String) (p q : Path) (h : k ≠ k2) :
    PathsApart (k :: p) (k2 :: q) := by
  simp [PathsApart, List.cons_prefix_cons, h, Ne.symm h]

theorem pathsApart_nil_left (q : Path) : ¬ PathsApart [] q := by
  simp [PathsApart]

theorem pathsApart_nil_right (p : Path) : ¬ PathsApart p [] := by
  simp [PathsApart]

theorem members_obj (ms : Members) : (Json.obj ms).members = ms := rfl

theorem getPath_cons (j : Json) (k : String) (ks : Path) :
    getPath j (k :: ks) = (j.members.lookup k).bind (fun child => getPath child ks) := by
  rw [getPath]
  cases j.members.lookup k <;> rfl

/-- What was set at a path is read back at that path, and below it. -/
theorem getPath_setPath_below : ∀ (p : Path) (j v : Json) (q : Path),
    getPath (setPath j p v) (p ++ q) = getPath v q
  | [], j, v, q => by simp [setPath]
  | k :: ks, j, v, q => by
    simp only [setPath, List.cons_append, getPath_cons, members_obj, lookup_upsert_self,
      Option.some_bind]
    exact getPath_setPath_below ks _ v q

theorem getPath_setPath_self (p : Path) (j v : Json) :
    getPath (setPath j p v) p = some v := by
  have h := getPath_setPath_below p j v []
  simpa [getPath] using h

/-- Setting a path leaves every path apart from it as it was. -/
theorem getPath_setPath_apart : ∀ (p q : Path) (j v : Json), PathsApart p q →
    getPath (setPath j p v) q = getPath j q
  | [], q, _, _, h => absurd h (pathsApart_nil_left q)
  | k :: ks, [], _, _, h => absurd h (pathsApart_nil_right (k :: ks))
  | k :: ks, k2 :: qs, j, v, h => by
    simp only [setPath, getPath_cons, members_obj]
    by_cases hk : k = k2
    · subst hk
      rw [lookup_upsert_self, Option.some_bind,
        getPath_setPath_apart ks qs _ v ((pathsApart_cons_same k ks qs).mp h)]
      cases hl : j.members.lookup k with
      | some child => simp
      | none =>
        cases qs with
        | nil => exact absurd h (by simp [PathsApart])
        | cons q1 qs1 => simp [getPath_cons, members_obj, Members.lookup]
    · rw [lookup_upsert_of_ne _ k k2 _ hk]

theorem getPath_of_not_obj (j : Json) (k : String) (ks : Path) (h : j.members = .nil) :
    getPath j (k :: ks) = none := by
  simp [getPath_cons, h, Members.lookup]

theorem lookup_mapAt_self : ∀ (ms : Members) (k : String) (f : Json → Json),
    (ms.mapAt k f).lookup k = (ms.lookup k).map f
  | .nil, k, f => by simp [Members.mapAt, Members.lookup]
  | .cons k1 v1 rest, k, f => by
    by_cases h : k1 = k
    · simp [Members.mapAt, Members.lookup, h]
    · simp [Members.mapAt, Members.lookup, h, lookup_mapAt_self rest k f]

theorem lookup_mapAt_of_ne : ∀ (ms : Members) (k k2 : String) (f : Json → Json), k ≠ k2 →
    (ms.mapAt k f).lookup k2 = ms.lookup k2
  | .nil, k, k2, f, _ => by simp [Members.mapAt, Members.lookup]
  | .cons k1 v1 rest, k, k2, f, hne => by
    by_cases h : k1 = k
    · subst h
      simp [Members.mapAt, Members.lookup, hne, lookup_mapAt_of_ne rest k1 k2 f hne]
    · by_cases h2 : k1 = k2
      · subst h2
        simp [Members.mapAt, Members.lookup, h]
      · simp [Members.mapAt, Members.lookup, h, h2, lookup_mapAt_of_ne rest k k2 f hne]

/-- Nothing is left at a removed path, nor below it. -/
theorem getPath_removePath_below : ∀ (p : Path) (j : Json) (q : Path), p ≠ [] →
    getPath (removePath j p) (p ++ q) = none
  | [], _, _, h => absurd rfl h
  | [k], j, q, _ => by
    cases j with
    | obj ms => simp [removePath, getPath_cons, members_obj, lookup_erase_self]
    | _ => simp [removePath, getPath_cons, Json.members, Members.lookup]
  | k :: k2 :: ks, j, q, _ => by
    cases j with
    | obj ms =>
      simp only [removePath, List.cons_append, getPath_cons, members_obj, lookup_mapAt_self]
      cases hl : ms.lookup k with
      | none => simp
      | some child =>
        have ih := getPath_removePath_below (k2 :: ks) child q (by simp)
        simpa [getPath_cons] using ih
    | _ => simp [removePath, getPath_cons, Json.members, Members.lookup]

/-- Removing a path leaves every path apart from it as it was. -/
theorem getPath_removePath_apart : ∀ (p q : Path) (j : Json), PathsApart p q →
    getPath (removePath j p) q = getPath j q
  | [], q, _, h => absurd h (pathsApart_nil_left q)
  | k :: ks, [], _, h => absurd h (pathsApart_nil_right (k :: ks))
  | [k], k2 :: qs, j, h => by
    have hk : k ≠ k2 := by
      intro hk
      subst hk
      exact h.1 (by simp)
    cases j with
    | obj ms => simp [removePath, getPath_cons, members_obj, lookup_erase_of_ne ms k k2 hk]
    | _ => simp [removePath]
  | k :: k3 :: ks, k2 :: qs, j, h => by
    cases j with
    | obj ms =>
      simp only [removePath, getPath_cons, members_obj]
      by_cases hk : k = k2
      · subst hk
        rw [lookup_mapAt_self]
        cases hl : ms.lookup k with
        | none => simp
        | some child =>
          simp only [Option.map_some', Option.some_bind]
          exact getPath_removePath_apart (k3 :: ks) qs child
            ((pathsApart_cons_same k (k3 :: ks) qs).mp h)
      · rw [lookup_mapAt_of_ne _ k k2 _ hk]
    | _ => simp [removePath]

/-! ## The profiles -/

theorem getPath_setDiscovery (enabled : Bool) (doc : Json) :
    getPath (setDiscovery enabled doc) mdnsEnabled = some (.bool enabled) ∧
      getPath (setDiscovery enabled doc) webRTCStarEnabled = some (.bool enabled) := by
  constructor
  · rw [setDiscovery, getPath_setPath_apart webRTCStarEnabled mdnsEnabled _ _ (by decide),
      getPath_setPath_self]
  · rw [setDiscovery, getPath_setPath_self]

theorem getPath_setDiscovery_apart (enabled : Bool) (doc : Json) (q : Path)
    (h1 : PathsApart mdnsEnabled q) (h2 : PathsApart webRTCStarEnabled q) :
    getPath (setDiscovery enabled doc) q = getPath doc q := by
  rw [setDiscovery, getPath_setPath_apart _ _ _ _ h2, getPath_setPath_apart _ _ _ _ h1]

/-- Every registered profile is the one found under its name. -/
theorem lookupProfile_of_mem (defaults : Defaults) (P : Profile)
    (h : P ∈ ProfileRegistry defaults) : lookupProfile defaults P.name = some P := by
  simp only [ProfileRegistry, List.mem_cons, List.mem_singleton, List.not_mem_nil,
    or_false] at h
  rcases h with rfl | rfl | rfl | rfl | rfl | rfl <;>
    simp [lookupProfile, ProfileRegistry, List.find?, serverProfile, localDiscoveryProfile,
      testProfile, defaultNetworkingProfile, lowpowerProfile, defaultPowerProfile]

theorem lookupProfile_server (defaults : Defaults) :
    lookupProfile defaults "server" = some serverProfile :=
  lookupProfile_of_mem defaults serverProfile (by simp [ProfileRegistry])

theorem lookupProfile_localDiscovery (defaults : Defaults) :
    lookupProfile defaults "local-discovery" = some localDiscoveryProfile :=
  lookupProfile_of_mem defaults localDiscoveryProfile (by simp [ProfileRegistry])

theorem redact_eq (document : Json) :
    redact document = removePath document ["Identity", "PrivKey"] := rfl

/-! ## The claims about the profile engine -/

/-- C6: for every document, store content and registered profile, the dry run and the real run
return the same result document; the dry run reports it as not applied and leaves the store
as it was, the real run reports it as applied and the store then holds the result. For
`server` run on the store's own document, Discovery.MDNS.Enabled keeps its prior value after
the dry run and is false after the real run. -/
theorem dry_run_same_result_no_write (defaults : Defaults) (P : Profile)
    (hP : P ∈ ProfileRegistry defaults) (document store : Json) :
    (∃ result,
      (applyProfile defaults document P.name true store).returned = .ok ⟨result, false⟩ ∧
      (applyProfile defaults document P.name false store).returned = .ok ⟨result, true⟩ ∧
      (applyProfile defaults document P.name true store).store = store ∧
      (applyProfile defaults document P.name false store).store = result) ∧
    (configProfileApply defaults P.name true store).output =
      (configProfileApply defaults P.name false store).output ∧
    (configProfileApply defaults P.name true store).store = store ∧
    getPath (configProfileApply defaults "server" true store).store mdnsEnabled =
      getPath store mdnsEnabled ∧
    getPath (configProfileApply defaults "server" false store).store mdnsEnabled =
      some (.bool false) := by
  have hs := lookupProfile_server defaults
  refine ⟨⟨P.apply document, ?_, ?_, ?_, ?_⟩, ?_, ?_, ?_, ?_⟩
  · simp [applyProfile, lookupProfile_of_mem defaults P hP]
  · simp [applyProfile, lookupProfile_of_mem defaults P hP]
  · simp [applyProfile, lookupProfile_of_mem defaults P hP]
  · simp [applyProfile, lookupProfile_of_mem defaults P hP]
  · simp [configProfileApply, applyProfile, lookupProfile_of_mem defaults P hP]
  · simp [configProfileApply, applyProfile, lookupProfile_of_mem defaults P hP]
  · simp [configProfileApply, applyProfile, hs]
  · simp [configProfileApply, applyProfile, hs, serverProfile,
      (getPath_setDiscovery false store).1]

theorem dry_run_same_result_no_write_witness :
    (∃ result,
      (applyProfile exampleDefaults exampleDocument (lowpowerProfile exampleDefaults).name true
        exampleDocument).returned = .ok ⟨result, false⟩ ∧
      (applyProfile exampleDefaults exampleDocument (lowpowerProfile exampleDefaults).name false
        exampleDocument).returned = .ok ⟨result, true⟩ ∧
      (applyProfile exampleDefaults exampleDocument (lowpowerProfile exampleDefaults).name true
        exampleDocument).store = exampleDocument ∧
      (applyProfile exampleDefaults exampleDocument (lowpowerProfile exampleDefaults).name false
        exampleDocument).store = result) ∧
    (configProfileApply exampleDefaults (lowpowerProfile exampleDefaults).name true
        exampleDocument).output =
      (configProfileApply exampleDefaults (lowpowerProfile exampleDefaults).name false
        exampleDocument).output ∧
    (configProfileApply exampleDefaults (lowpowerProfile exampleDefaults).name true
        exampleDocument).store = exampleDocument ∧
    getPath (configProfileApply exampleDefaults "server" true exampleDocument).store
        mdnsEnabled = getPath exampleDocument mdnsEnabled ∧
    getPath (configProfileApply exampleDefaults "server" false exampleDocument).store
        mdnsEnabled = some (.bool false) :=
  dry_run_same_result_no_write exampleDefaults (lowpowerProfile exampleDefaults)
    (by simp [ProfileRegistry]) exampleDocument exampleDocument

/-- C7: for every document in the store, after `config profile apply server` the store has
Discovery.MDNS.Enabled and Discovery.webRTCStar.Enabled both false, after a following
`config profile apply local-discovery` both true, and every path apart from these two reads
the same in the store before, between and after. -/
theorem server_then_local_discovery (defaults : Defaults) (store : Json) :
    getPath (configProfileApply defaults "server" false store).store mdnsEnabled =
        some (.bool false) ∧
      getPath (configProfileApply defaults "server" false store).store webRTCStarEnabled =
        some (.bool false) ∧
      getPath (configProfileApply defaults "local-discovery" false
        (configProfileApply defaults "server" false store).store).store mdnsEnabled =
        some (.bool true) ∧
      getPath (configProfileApply defaults "local-discovery" false
        (configProfileApply defaults "server" false store).store).store webRTCStarEnabled =
        some (.bool true) ∧
      ∀ q : Path, PathsApart mdnsEnabled q → PathsApart webRTCStarEnabled q →
        getPath (configProfileApply defaults "server" false store).store q = getPath store q ∧
        getPath (configProfileApply defaults "local-discovery" false
          (configProfileApply defaults "server" false store).store).store q =
          getPath store q := by
  have h1 : (configProfileApply defaults "server" false store).store =
      setDiscovery false store := by
    simp [configProfileApply, applyProfile, lookupProfile_server, serverProfile]
  have h2 : ∀ s, (configProfileApply defaults "local-discovery" false s).store =
      setDiscovery true s := by
    intro s
    simp [configProfileApply, applyProfile, lookupProfile_localDiscovery,
      localDiscoveryProfile]
  rw [h2, h1]
  refine ⟨(getPath_setDiscovery false store).1, (getPath_setDiscovery false store).2,
    (getPath_setDiscovery true _).1, (getPath_setDiscovery true _).2, ?_⟩
  intro q hq1 hq2
  rw [getPath_setDiscovery_apart true _ q hq1 hq2, getPath_setDiscovery_apart false _ q hq1 hq2]
  exact ⟨rfl, rfl⟩

end ConfigProfile

namespace ConfigProfile

/-! ## Texts and the serialized form -/

/-- A list without the element `c` lies in `u ++ c :: w` only inside `u` or inside `w`. -/
theorem prefix_of_prefix_append_cons {α : Type} : ∀ (needle u w : List α) (c : α),
    c ∉ needle → needle <+: u ++ c :: w → needle <+: u
  | [], _, _, _, _, _ => List.nil_prefix
  | a :: n, [], w, c, hc, h => by
    have h1 : a = c := (List.cons_prefix_cons.mp h).1
    exact absurd (h1 ▸ List.mem_cons_self a n) hc
  | a :: n, x :: u, w, c, hc, h => by
    have h1 := List.cons_prefix_cons.mp h
    have h2 : n <+: u := prefix_of_prefix_append_cons n u w c
      (fun hm => hc (List.mem_cons_of_mem a hm)) h1.2
    exact List.cons_prefix_cons.mpr ⟨h1.1, h2⟩

theorem infix_append_cons_iff {α : Type} (needle : List α) (c : α) (hc : c ∉ needle) :
    ∀ (u w : List α), needle <:+: u ++ c :: w ↔ needle <:+: u ∨ needle <:+: w
  | [], w => by
    rw [List.nil_append, List.infix_cons_iff]
    constructor
    · rintro (h | h)
      · exact Or.inl (prefix_of_prefix_append_cons needle [] w c hc h).isInfix
      · exact Or.inr h
    · rintro (h | h)
      · rw [List.infix_nil] at h
        subst h
        exact Or.inl List.nil_prefix
      · exact Or.inr h
  | x :: u, w => by
    rw [List.cons_append, List.infix_cons_iff, infix_append_cons_iff needle c hc u w,
      List.infix_cons_iff]
    constructor
    · rintro (h | h | h)
      · exact Or.inl (Or.inl (prefix_of_prefix_append_cons needle (x :: u) w c hc h))
      · exact Or.inl (Or.inr h)
      · exact Or.inr h
    · rintro ((h | h) | h)
      · exact Or.inl (h.trans (List.prefix_append (x :: u) (c :: w)))
      · exact Or.inr (Or.inl h)
      · exact Or.inr (Or.inr h)

theorem Plain.not_infix_nil {needle : List Char} (h : Plain needle) : ¬ needle <:+: [] :=
  fun hn => h.1 (List.infix_nil.mp hn)

theorem Plain.not_mem {needle : List Char} (h : Plain needle) (c : Char)
    (hc : c ∈ jsonPunctuation) : c ∉ needle :=
  h.2 c hc

theorem infix_quote_iff {needle : List Char} (h : Plain needle) (s : String) :
    needle <:+: quote s ↔ needle <:+: body s := by
  have hq : ('"' : Char) ∉ needle := h.not_mem _ (by simp [jsonPunctuation])
  have e : quote s = [] ++ '"' :: (body s ++ '"' :: []) := rfl
  rw [e, infix_append_cons_iff needle _ hq, infix_append_cons_iff needle _ hq]
  constructor
  · rintro (h1 | h1 | h1)
    · exact absurd h1 h.not_infix_nil
    · exact h1
    · exact absurd h1 h.not_infix_nil
  · intro h1
    exact Or.inr (Or.inl h1)

theorem infix_renderStrings_iff {needle : List Char} (h : Plain needle) :
    ∀ xs : List String, needle <:+: renderStrings xs ↔ ∃ x ∈ xs, needle <:+: body x
  | [] => by simpa [renderStrings] using h.not_infix_nil
  | [s] => by simp [renderStrings, infix_quote_iff h]
  | s :: t :: rest => by
    have hc : (',' : Char) ∉ needle := h.not_mem _ (by simp [jsonPunctuation])
    have e : renderStrings (s :: t :: rest) = quote s ++ ',' :: renderStrings (t :: rest) :=
      rfl
    rw [e, infix_append_cons_iff needle _ hc, infix_quote_iff h,
      infix_renderStrings_iff h (t :: rest)]
    simp

theorem render_cons (k : String) (v : Json) (k2 : String) (v2 : Json) (rest : Members) :
    (Members.cons k v (.cons k2 v2 rest)).render =
      quote k ++ ':' :: (v.render ++ ',' :: (Members.cons k2 v2 rest).render) := by
  simp [Members.render]

mutual
/-- A plain text lies in the serialized form of a document exactly when it lies in one of the
texts of the document. -/
theorem infix_render_iff {needle : List Char} (h : Plain needle) :
    ∀ d : Json, needle <:+: d.render ↔ ∃ a ∈ d.atoms, needle <:+: a
  | .null => by simp [Json.render, Json.atoms]
  | .bool true => by simp [Json.render, Json.atoms]
  | .bool false => by simp [Json.render, Json.atoms]
  | .num n => by simp [Json.render, Json.atoms]
  | .str s => by simp [Json.render, Json.atoms, infix_quote_iff h]
  | .strs xs => by
    have h1 : ('[' : Char) ∉ needle := h.not_mem _ (by simp [jsonPunctuation])
    have h2 : (']' : Char) ∉ needle := h.not_mem _ (by simp [jsonPunctuation])
    have e : (Json.strs xs).render = [] ++ '[' :: (renderStrings xs ++ ']' :: []) := by
      simp [Json.render]
    rw [e, infix_append_cons_iff needle _ h1, infix_append_cons_iff needle _ h2,
      infix_renderStrings_iff h]
    simp [Json.atoms, h.not_infix_nil]
  | .obj ms => by
    have h1 : ('{' : Char) ∉ needle := h.not_mem _ (by simp [jsonPunctuation])
    have h2 : ('}' : Char) ∉ needle := h.not_mem _ (by simp [jsonPunctuation])
    have e : (Json.obj ms).render = [] ++ '{' :: (ms.render ++ '}' :: []) := by
      simp [Json.render]
    rw [e, infix_append_cons_iff needle _ h1, infix_append_cons_iff needle _ h2,
      infix_renderMembers_iff h ms]
    simp [Json.atoms, h.not_infix_nil]
/-- The same for the members of an object. -/
theorem infix_renderMembers_iff {needle : List Char} (h : Plain needle) :
    ∀ ms : Members, needle <:+: ms.render ↔ ∃ a ∈ ms.atoms, needle <:+: a
  | .nil => by simpa [Members.render, Members.atoms] using h.not_infix_nil
  | .cons k v .nil => by
    have h1 : (':' : Char) ∉ needle := h.not_mem _ (by simp [jsonPunctuation])
    have e : (Members.cons k v .nil).render = quote k ++ ':' :: v.render := by
      simp [Members.render]
    rw [e, infix_append_cons_iff needle _ h1, infix_quote_iff h, infix_render_iff h v]
    simp [Members.atoms]
  | .cons k v (.cons k2 v2 rest) => by
    have h1 : (':' : Char) ∉ needle := h.not_mem _ (by simp [jsonPunctuation])
    have h2 : (',' : Char) ∉ needle := h.not_mem _ (by simp [jsonPunctuation])
    rw [render_cons, infix_append_cons_iff needle _ h1, infix_append_cons_iff needle _ h2,
      infix_quote_iff h, infix_render_iff h v, infix_renderMembers_iff h (.cons k2 v2 rest)]
    simp only [Members.atoms, List.mem_cons, List.mem_append]
    constructor
    · rintro (h3 | ⟨a, ha, h3⟩ | ⟨a, ha, h3⟩)
      · exact ⟨_, Or.inl rfl, h3⟩
      · exact ⟨a, Or.inr (Or.inl ha), h3⟩
      · exact ⟨a, Or.inr (Or.inr ha), h3⟩
    · rintro ⟨a, rfl | ha | ha, h3⟩
      · exact Or.inl h3
      · exact Or.inr (Or.inl ⟨a, ha, h3⟩)
      · exact Or.inr (Or.inr ⟨a, ha, h3⟩)
end

/-! ## Texts after an update -/

theorem atoms_obj (ms : Members) : (Json.obj ms).atoms = ms.atoms := by
  simp [Json.atoms]

theorem atoms_of_lookup : ∀ (ms : Members) (k : String) (c : Json), ms.lookup k = some c →
    ∀ a ∈ c.atoms, a ∈ ms.atoms
  | .nil, k, c, h => by simp [Members.lookup] at h
  | .cons k1 v1 rest, k, c, h => by
    intro a ha
    simp only [Members.atoms, List.mem_cons, List.mem_append]
    by_cases hk : k1 = k
    · simp only [Members.lookup, hk, if_true, Option.some.injEq] at h
      subst h
      exact Or.inr (Or.inl ha)
    · simp only [Members.lookup, hk, if_false] at h
      exact Or.inr (Or.inr (atoms_of_lookup rest k c h a ha))

theorem atoms_upsert : ∀ (ms : Members) (k : String) (v : Json) (a : List Char),
    a ∈ (ms.upsert k v).atoms → a ∈ ms.atoms ∨ a = body k ∨ a ∈ v.atoms
  | .nil, k, v, a, h => by
    simp only [Members.upsert, Members.atoms, List.mem_cons, List.mem_append,
      List.not_mem_nil, or_false] at h
    exact Or.inr h
  | .cons k1 v1 rest, k, v, a, h => by
    by_cases hk : k1 = k
    · subst hk
      simp only [Members.upsert, if_true, Members.atoms, List.mem_cons, List.mem_append] at h ⊢
      rcases h with h | h | h
      · exact Or.inl (Or.inl h)
      · exact Or.inr (Or.inr h)
      · exact Or.inl (Or.inr (Or.inr h))
    · simp only [Members.upsert, hk, if_false, Members.atoms, List.mem_cons,
        List.mem_append] at h ⊢
      rcases h with h | h | h
      · exact Or.inl (Or.inl h)
      · exact Or.inl (Or.inr (Or.inl h))
      · rcases atoms_upsert rest k v a h with h2 | h2 | h2
        · exact Or.inl (Or.inr (Or.inr h2))
        · exact Or.inr (Or.inl h2)
        · exact Or.inr (Or.inr h2)

theorem atoms_members (j : Json) (a : List Char) (h : a ∈ j.members.atoms) : a ∈ j.atoms := by
  cases j with
  | obj ms => simpa [atoms_obj, members_obj] using h
  | _ => simp [Json.members, Members.atoms] at h

/-- Every text of a document after `setPath` is a text of the document before, a key of the
path, or a text of the value. -/
theorem atoms_setPath : ∀ (p : Path) (j v : Json) (a : List Char),
    a ∈ (setPath j p v).atoms → a ∈ j.atoms ∨ a ∈ p.map body ∨ a ∈ v.atoms
  | [], _, _, _, h => Or.inr (Or.inr h)
  | k :: ks, j, v, a, h => by
    rw [setPath, atoms_obj] at h
    rcases atoms_upsert _ _ _ _ h with h1 | h1 | h1
    · exact Or.inl (atoms_members j a h1)
    · exact Or.inr (Or.inl (by simp [h1]))
    · rcases atoms_setPath ks _ v a h1 with h2 | h2 | h2
      · cases hl : j.members.lookup k with
        | none => simp [hl, atoms_obj, Members.atoms] at h2
        | some c =>
          rw [hl] at h2
          exact Or.inl (atoms_members j a (atoms_of_lookup _ k c hl a h2))
      · exact Or.inr (Or.inl (List.mem_cons_of_mem _ h2))
      · exact Or.inr (Or.inr h2)

/-! ## Redaction and the profiles -/

theorem mapAt_upsert_of_ne : ∀ (ms : Members) (k k2 : String) (v : Json) (f : Json → Json),
    k ≠ k2 → (ms.upsert k v).mapAt k2 f = (ms.mapAt k2 f).upsert k v
  | .nil, k, k2, v, f, hne => by simp [Members.upsert, Members.mapAt, hne]
  | .cons k1 v1 rest, k, k2, v, f, hne => by
    by_cases h : k1 = k
    · subst h
      simp [Members.upsert, Members.mapAt, hne]
    · by_cases h2 : k1 = k2
      · subst h2
        simp [Members.upsert, Members.mapAt, h, mapAt_upsert_of_ne rest k k1 v f hne]
      · simp [Members.upsert, Members.mapAt, h, h2, mapAt_upsert_of_ne rest k k2 v f hne]

theorem members_removePath (j : Json) (q q2 : String) (qs : Path) :
    (removePath j (q :: q2 :: qs)).members =
      j.members.mapAt q (fun child => removePath child (q2 :: qs)) := by
  cases j <;> simp [removePath, Json.members, Members.mapAt]

theorem removePath_obj (ms : Members) (q q2 : String) (qs : Path) :
    removePath (.obj ms) (q :: q2 :: qs) =
      .obj (ms.mapAt q (fun child => removePath child (q2 :: qs))) := by
  simp [removePath]

/-- Removing a path and setting a path that starts with another key can be done in either
order. -/
theorem removePath_setPath_comm (j v : Json) (k : String) (ks : Path) (q q2 : String)
    (qs : Path) (hne : k ≠ q) :
    removePath (setPath j (k :: ks) v) (q :: q2 :: qs) =
      setPath (removePath j (q :: q2 :: qs)) (k :: ks) v := by
  rw [setPath, setPath, removePath_obj, members_removePath, mapAt_upsert_of_ne _ k q _ _ hne,
    lookup_mapAt_of_ne _ q k _ (Ne.symm hne)]

theorem redact_setPath (j v : Json) (k : String) (ks : Path) (hne : k ≠ "Identity") :
    redact (setPath j (k :: ks) v) = setPath (redact j) (k :: ks) v := by
  rw [redact_eq, redact_eq]
  exact removePath_setPath_comm j v k ks "Identity" "PrivKey" [] hne

theorem redact_setDiscovery (enabled : Bool) (d : Json) :
    redact (setDiscovery enabled d) = setDiscovery enabled (redact d) := by
  simp only [setDiscovery, mdnsEnabled, webRTCStarEnabled]
  rw [redact_setPath _ _ _ _ (by decide), redact_setPath _ _ _ _ (by decide)]

theorem redact_setWatermarks (low high : Int) (d : Json) :
    redact (setWatermarks low high d) = setWatermarks low high (redact d) := by
  simp only [setWatermarks, lowWater, highWater]
  rw [redact_setPath _ _ _ _ (by decide), redact_setPath _ _ _ _ (by decide)]

theorem redact_applyTest (d : Json) : redact (applyTest d) = applyTest (redact d) := by
  simp only [applyTest, redact_setDiscovery, addressesAPI, addressesGateway, addressesSwarm,
    bootstrap]
  rw [redact_setPath _ _ _ _ (by decide), redact_setPath _ _ _ _ (by decide),
    redact_setPath _ _ _ _ (by decide), redact_setPath _ _ _ _ (by decide)]

theorem redact_applyDefaultNetworking (defaults : Defaults) (d : Json) :
    redact (applyDefaultNetworking defaults d) = applyDefaultNetworking defaults (redact d) := by
  simp only [applyDefaultNetworking, redact_setDiscovery, addressesAPI, addressesGateway,
    addressesSwarm, bootstrap]
  rw [redact_setPath _ _ _ _ (by decide), redact_setPath _ _ _ _ (by decide),
    redact_setPath _ _ _ _ (by decide), redact_setPath _ _ _ _ (by decide)]

/-- Redaction and a registered profile can be applied in either order. -/
theorem redact_apply (defaults : Defaults) (P : Profile) (hP : P ∈ ProfileRegistry defaults)
    (d : Json) : redact (P.apply d) = P.apply (redact d) := by
  simp only [ProfileRegistry, List.mem_cons, List.mem_singleton, List.not_mem_nil,
    or_false] at hP
  rcases hP with rfl | rfl | rfl | rfl | rfl | rfl
  · exact redact_setDiscovery false d
  · exact redact_setDiscovery true d
  · exact redact_applyTest d
  · exact redact_applyDefaultNetworking defaults d
  · exact redact_setWatermarks 20 40 d
  · exact redact_setWatermarks _ _ d

theorem atoms_setPath_within (T : List (List Char)) (p : Path) (j v : Json) (a : List Char)
    (hp : ∀ k ∈ p, body k ∈ T) (hv : ∀ b ∈ v.atoms, b ∈ T)
    (h : a ∈ (setPath j p v).atoms) : a ∈ j.atoms ∨ a ∈ T := by
  rcases atoms_setPath p j v a h with h1 | h1 | h1
  · exact Or.inl h1
  · obtain ⟨k, hk, rfl⟩ := List.mem_map.mp h1
    exact Or.inr (hp k hk)
  · exact Or.inr (hv a h1)

theorem key_mem_profileTexts (defaults : Defaults) (k : String)
    (hk : k ∈ mdnsEnabled ++ webRTCStarEnabled ++ addressesAPI ++ addressesGateway ++
      addressesSwarm ++ bootstrap ++ lowWater ++ highWater) :
    body k ∈ profileTexts defaults := by
  unfold profileTexts
  exact List.mem_append_left _ (List.mem_map.mpr ⟨k, hk, rfl⟩)

theorem atoms_setDiscovery (defaults : Defaults) (enabled : Bool) (d : Json) (a : List Char)
    (h : a ∈ (setDiscovery enabled d).atoms) : a ∈ d.atoms ∨ a ∈ profileTexts defaults := by
  have hv : ∀ b ∈ (Json.bool enabled).atoms, b ∈ profileTexts defaults := by
    intro b hb
    unfold profileTexts
    simp only [List.mem_append]
    cases enabled <;> tauto
  rcases atoms_setPath_within (profileTexts defaults) webRTCStarEnabled _ _ a
      (fun k hk => key_mem_profileTexts defaults k (by simp [hk])) hv h with h1 | h1
  · rcases atoms_setPath_within (profileTexts defaults) mdnsEnabled _ _ a
        (fun k hk => key_mem_profileTexts defaults k (by simp [hk])) hv h1 with h2 | h2
    · exact Or.inl h2
    · exact Or.inr h2
  · exact Or.inr h1

theorem atoms_setWatermarks (defaults : Defaults) (low high : Int) (d : Json) (a : List Char)
    (hlow : ∀ b ∈ (Json.num low).atoms, b ∈ profileTexts defaults)
    (hhigh : ∀ b ∈ (Json.num high).atoms, b ∈ profileTexts defaults)
    (h : a ∈ (setWatermarks low high d).atoms) : a ∈ d.atoms ∨ a ∈ profileTexts defaults := by
  rcases atoms_setPath_within (profileTexts defaults) highWater _ _ a
      (fun k hk => key_mem_profileTexts defaults k (by simp [hk])) hhigh h with h1 | h1
  · rcases atoms_setPath_within (profileTexts defaults) lowWater _ _ a
        (fun k hk => key_mem_profileTexts defaults k (by simp [hk])) hlow h1 with h2 | h2
    · exact Or.inl h2
    · exact Or.inr h2
  · exact Or.inr h1

theorem atoms_networking (defaults : Defaults) (api gateway : String)
    (swarm boot : List String) (d : Json) (a : List Char)
    (hapi : ∀ b ∈ (Json.str api).atoms, b ∈ profileTexts defaults)
    (hgateway : ∀ b ∈ (Json.str gateway).atoms, b ∈ profileTexts defaults)
    (hswarm : ∀ b ∈ (Json.strs swarm).atoms, b ∈ profileTexts defaults)
    (hboot : ∀ b ∈ (Json.strs boot).atoms, b ∈ profileTexts defaults)
    (h : a ∈ (setPath (setPath (setPath (setPath d addressesAPI (.str api))
      addressesGateway (.str gateway)) addressesSwarm (.strs swarm))
      bootstrap (.strs boot)).atoms) : a ∈ d.atoms ∨ a ∈ profileTexts defaults := by
  rcases atoms_setPath_within (profileTexts defaults) bootstrap _ _ a
      (fun k hk => key_mem_profileTexts defaults k (by simp [hk])) hboot h with h1 | h1
  · rcases atoms_setPath_within (profileTexts defaults) addressesSwarm _ _ a
        (fun k hk => key_mem_profileTexts defaults k (by simp [hk])) hswarm h1 with h2 | h2
    · rcases atoms_setPath_within (profileTexts defaults) addressesGateway _ _ a
          (fun k hk => key_mem_profileTexts defaults k (by simp [hk])) hgateway h2 with h3 | h3
      · rcases atoms_setPath_within (profileTexts defaults) addressesAPI _ _ a
            (fun k hk => key_mem_profileTexts defaults k (by simp [hk])) hapi h3 with h4 | h4
        · exact Or.inl h4
        · exact Or.inr h4
      · exact Or.inr h3
    · exact Or.inr h2
  · exact Or.inr h1

/-- Every text of a document after a registered profile is a text of the document before or
one of the texts the profiles write. -/
theorem atoms_apply (defaults : Defaults) (P : Profile) (hP : P ∈ ProfileRegistry defaults)
    (d : Json) (a : List Char) (h : a ∈ (P.apply d).atoms) :
    a ∈ d.atoms ∨ a ∈ profileTexts defaults := by
  simp only [ProfileRegistry, List.mem_cons, List.mem_singleton, List.not_mem_nil,
    or_false] at hP
  rcases hP with rfl | rfl | rfl | rfl | rfl | rfl
  · exact atoms_setDiscovery defaults false d a h
  · exact atoms_setDiscovery defaults true d a h
  · rcases atoms_setDiscovery defaults false _ a h with h1 | h1
    · refine atoms_networking defaults _ _ _ _ d a ?_ ?_ ?_ ?_ h1 <;>
        · intro b hb
          unfold profileTexts
          simp only [List.mem_append]
          simp only [Json.atoms, List.map_nil, List.map_cons, List.not_mem_nil] at hb ⊢ <;>
            tauto
    · exact Or.inr h1
  · rcases atoms_setDiscovery defaults true _ a h with h1 | h1
    · refine atoms_networking defaults _ _ _ _ d a ?_ ?_ ?_ ?_ h1 <;>
        · intro b hb
          unfold profileTexts
          simp only [List.mem_append]
          tauto
    · exact Or.inr h1
  · refine atoms_setWatermarks defaults 20 40 d a ?_ ?_ h <;>
      · intro b hb
        unfold profileTexts
        simp only [List.mem_append]
        tauto
  · refine atoms_setWatermarks defaults _ _ d a ?_ ?_ h <;>
      · intro b hb
        unfold profileTexts
        simp only [List.mem_append]
        tauto

/-! ## The claim about the output -/

set_option maxRecDepth 100000

/-- C8 (counterexample): a document with a private key at Identity.PrivKey and a copy of it
under Legacy; the output of `config profile apply server` contains both the text "PrivKey"
and the value of the private key. -/
theorem output_shows_copy_of_private_key :
    getPath documentWithCopy ["Identity", "PrivKey"] = some (.str "CAASpQkw") ∧
      (configProfileApply exampleDefaults "server" false documentWithCopy).output =
        .ok ("\x7b\"Identity\":\x7b\"PeerID\":\"QmPeer\"\x7d," ++
          "\"Discovery\":\x7b\"MDNS\":\x7b\"Enabled\":false\x7d," ++
          "\"webRTCStar\":\x7b\"Enabled\":false\x7d\x7d," ++
          "\"Legacy\":\x7b\"PrivKey\":\"CAASpQkw\"\x7d\x7d") ∧
      SwarmConnect.Contains
        ("\x7b\"Identity\":\x7b\"PeerID\":\"QmPeer\"\x7d," ++
          "\"Discovery\":\x7b\"MDNS\":\x7b\"Enabled\":false\x7d," ++
          "\"webRTCStar\":\x7b\"Enabled\":false\x7d\x7d," ++
          "\"Legacy\":\x7b\"PrivKey\":\"CAASpQkw\"\x7d\x7d") "PrivKey" ∧
      SwarmConnect.Contains
        ("\x7b\"Identity\":\x7b\"PeerID\":\"QmPeer\"\x7d," ++
          "\"Discovery\":\x7b\"MDNS\":\x7b\"Enabled\":false\x7d," ++
          "\"webRTCStar\":\x7b\"Enabled\":false\x7d\x7d," ++
          "\"Legacy\":\x7b\"PrivKey\":\"CAASpQkw\"\x7d\x7d") "CAASpQkw" :=
  ⟨rfl, rfl, by decide, by decide⟩

/-- C8 (amended): for every document in the store, registered profile and dry-run flag, and
every plain text (not empty, without JSON punctuation; such as "PrivKey", or the string kept in
the private-key field): if the serialized document without its Identity.PrivKey field does not
contain the text, and the text lies in none of the keys and values the profiles write, then the
output of `config profile apply` does not contain the text. The output is the serialized form
of a document that has nothing at Identity.PrivKey. -/
theorem output_lacks_text_held_only_in_private_key (defaults : Defaults) (P : Profile)
    (hP : P ∈ ProfileRegistry defaults) (dryRun : Bool) (store : Json) (text : String)
    (hplain : Plain text.data)
    (hdoc : ¬ SwarmConnect.Contains
      (String.mk (removePath store ["Identity", "PrivKey"]).render) text)
    (hprofile : ∀ t ∈ profileTexts defaults, ¬ text.data <:+: t) :
    ∃ printed : Json,
      (configProfileApply defaults P.name dryRun store).output =
        .ok (String.mk printed.render) ∧
      getPath printed ["Identity", "PrivKey"] = none ∧
      ¬ SwarmConnect.Contains (String.mk printed.render) text := by
  refine ⟨redact (P.apply store), ?_, ?_, ?_⟩
  · cases dryRun <;>
      simp [configProfileApply, applyProfile, lookupProfile_of_mem defaults P hP]
  · have h := getPath_removePath_below ["Identity", "PrivKey"] (P.apply store) [] (by simp)
    simpa [redact_eq] using h
  · intro hc
    have hc2 : text.data <:+: (redact (P.apply store)).render := hc
    rw [redact_apply defaults P hP, infix_render_iff hplain] at hc2
    obtain ⟨a, ha, hin⟩ := hc2
    rcases atoms_apply defaults P hP (redact store) a ha with h1 | h1
    · exact hdoc ((infix_render_iff hplain (redact store)).mpr ⟨a, h1, hin⟩)
    · exact hprofile a h1 hin

theorem output_lacks_text_held_only_in_private_key_witness :
    getPath exampleDocument ["Identity", "PrivKey"] = some (.str "CAASpQkw") ∧
      (∃ printed : Json,
        (configProfileApply exampleDefaults serverProfile.name false exampleDocument).output =
          .ok (String.mk printed.render) ∧
        getPath printed ["Identity", "PrivKey"] = none ∧
        ¬ SwarmConnect.Contains (String.mk printed.render) "PrivKey") ∧
      ∃ printed : Json,
        (configProfileApply exampleDefaults serverProfile.name false exampleDocument).output =
          .ok (String.mk printed.render) ∧
        getPath printed ["Identity", "PrivKey"] = none ∧
        ¬ SwarmConnect.Contains (String.mk printed.render) "CAASpQkw" :=
  ⟨rfl,
    output_lacks_text_held_only_in_private_key exampleDefaults serverProfile
      (by simp [ProfileRegistry]) false exampleDocument "PrivKey" (by decide) (by decide)
      (by decide),
    output_lacks_text_held_only_in_private_key exampleDefaults serverProfile
      (by simp [ProfileRegistry]) false exampleDocument "CAASpQkw" (by decide) (by decide)
      (by decide)⟩

end ConfigProfile
